import Mathlib

/-!
Shallow embedding of the BlockInvoice contract (`src/lib.rs`): an invoicing
ledger with an id counter (`NEXT_INVOICE_ID`), an invoice table (`INVOICES`)
and a per-issuer index (`USER_INVOICES`), plus the two mutating entry points
(`execute_create_invoice`, `execute_pay_invoice`) and the read-only queries.

Addresses (`Addr`) are modelled as strings; `addr_validate` is the
host-provided validator, modelled as a parameter `api : String → Option String`
returning the validated address or `none` for a malformed input.  `Uint128`
amounts are modelled as `Nat` (the contract only compares them for equality and
tests for zero), and the `u64` id counter is incremented modulo `2 ^ 64`,
mirroring unchecked wrap-around of `id + 1`.

Each execute entry point returns `Except ContractError Response × State`: the
second component is the storage as left by the call, including any writes that
happened before an error exit, so that "no partial writes before an error" is a
provable property of the code rather than an artefact of the embedding.
-/

namespace BlockInvoice

/-- One funds entry attached to a call (`cosmwasm_std::Coin`). -/
structure Coin where
  denom : String
  amount : Nat
deriving DecidableEq, Repr

/-- Caller identity and attached funds (`cosmwasm_std::MessageInfo`). -/
structure MessageInfo where
  sender : String
  funds : List Coin
deriving DecidableEq, Repr

/-- The `Invoice` struct stored under `INVOICES`. -/
structure Invoice where
  id : Nat
  issuer : String
  recipient : String
  amount : Nat
  description : String
  due_date : Nat
  is_paid : Bool
deriving DecidableEq, Repr

/-- The whole persisted store: `NEXT_INVOICE_ID`, `INVOICES`, `USER_INVOICES`.
`Item`/`Map` storage is modelled as an optional value and association lists. -/
structure State where
  next_invoice_id : Option Nat
  invoices : List (Nat × Invoice)
  user_invoices : List (String × List Nat)
deriving DecidableEq, Repr

/-- Attributes of a successful call's `Response`. -/
structure Response where
  attributes : List (String × String)
deriving DecidableEq, Repr

/-- Errors returned by the contract: address validation failure, `load` on a
missing key, and the `StdError::generic_err` messages used in `lib.rs`. -/
inductive ContractError where
  | invalidAddress : ContractError
  | notFound : ContractError
  | generic : String → ContractError
deriving DecidableEq, Repr

def selfInvoiceErr : ContractError := .generic "Cannot create invoice for yourself"

def zeroAmountErr : ContractError := .generic "Amount must be greater than zero"

def unauthorizedErr : ContractError := .generic "Only the recipient can pay this invoice"

def alreadyPaidErr : ContractError := .generic "Invoice is already paid"

def incorrectPaymentErr : ContractError := .generic "Incorrect payment amount"

/-- `Map::save`: overwrite the value under a key, or append a fresh entry. -/
def setKey [BEq K] (k : K) (v : V) : List (K × V) → List (K × V)
  | [] => [(k, v)]
  | (k', v') :: rest => if k' == k then (k, v) :: rest else (k', v') :: setKey k v rest

/-- `instantiate`: initialize the invoice id counter to 1. -/
def instantiate (st : State) : Except ContractError Response × State :=
  (.ok ⟨[("action", "instantiate")]⟩, { st with next_invoice_id := some 1 })

/-- `execute_create_invoice` from `lib.rs`, line by line: validate the
recipient, reject self-invoices, reject zero amounts, allocate the id from the
counter (writing back `id + 1`, wrapping as a `u64`), store the invoice, append
the id to the issuer's index, and return the four attributes. -/
def execute_create_invoice (api : String → Option String) (st : State)
    (info : MessageInfo) (recipient : String) (amount : Nat)
    (description : String) (due_date : Nat) : Except ContractError Response × State :=
  match api recipient with
  | none => (.error .invalidAddress, st)
  | some recipient_addr =>
    if info.sender = recipient_addr then
      (.error (.generic "Cannot create invoice for yourself"), st)
    else if amount = 0 then
      (.error (.generic "Amount must be greater than zero"), st)
    else
      match st.next_invoice_id with
      | none => (.error .notFound, st)
      | some id =>
        let st1 : State := { st with next_invoice_id := some ((id + 1) % 2 ^ 64) }
        let invoice : Invoice :=
          { id := id, issuer := info.sender, recipient := recipient_addr,
            amount := amount, description := description, due_date := due_date,
            is_paid := false }
        let st2 : State := { st1 with invoices := setKey id invoice st1.invoices }
        let user_invoices := (List.lookup info.sender st2.user_invoices).getD []
        let st3 : State :=
          { st2 with user_invoices := setKey info.sender (user_invoices ++ [id]) st2.user_invoices }
        (.ok ⟨[("action", "create_invoice"), ("issuer", info.sender),
               ("recipient", recipient), ("invoice_id", toString id)]⟩, st3)

/-- `execute_pay_invoice` from `lib.rs`: load the invoice, check the caller is
the recipient, check it is unpaid, check the funds are a single entry whose
`amount` equals the invoice amount (the code compares only `amount`), then set
`is_paid` and save. -/
def execute_pay_invoice (st : State) (info : MessageInfo) (invoice_id : Nat) :
    Except ContractError Response × State :=
  match List.lookup invoice_id st.invoices with
  | none => (.error .notFound, st)
  | some invoice =>
    if invoice.recipient ≠ info.sender then
      (.error (.generic "Only the recipient can pay this invoice"), st)
    else if invoice.is_paid then
      (.error (.generic "Invoice is already paid"), st)
    else if info.funds.length ≠ 1 ∨ (info.funds.headD ⟨"", 0⟩).amount ≠ invoice.amount then
      (.error (.generic "Incorrect payment amount"), st)
    else
      let st1 : State :=
        { st with invoices := setKey invoice_id { invoice with is_paid := true } st.invoices }
      (.ok ⟨[("action", "pay_invoice"), ("payer", info.sender),
             ("invoice_id", toString invoice_id)]⟩, st1)

/-- The `ExecuteMsg` enum. -/
inductive ExecuteMsg where
  | CreateInvoice : String → Nat → String → Nat → ExecuteMsg
  | PayInvoice : Nat → ExecuteMsg
deriving DecidableEq, Repr

/-- The `execute` dispatcher. -/
def execute (api : String → Option String) (st : State) (info : MessageInfo) :
    ExecuteMsg → Except ContractError Response × State
  | .CreateInvoice recipient amount description due_date =>
      execute_create_invoice api st info recipient amount description due_date
  | .PayInvoice invoice_id => execute_pay_invoice st info invoice_id

/-- `query_invoice`: direct load, `notFound` if absent. -/
def query_invoice (st : State) (invoice_id : Nat) : Except ContractError Invoice :=
  match List.lookup invoice_id st.invoices with
  | none => .error .notFound
  | some invoice => .ok invoice

/-- `query_user_invoices`: validate the user string, load its index (empty if
absent), and look every id up in the invoice table, silently skipping ids whose
load fails. -/
def query_user_invoices (api : String → Option String) (st : State) (user : String) :
    Except ContractError (List Invoice) :=
  match api user with
  | none => .error .invalidAddress
  | some user_addr =>
    let invoice_ids := (List.lookup user_addr st.user_invoices).getD []
    .ok (invoice_ids.filterMap (fun id => List.lookup id st.invoices))

/-- The empty store handed to `instantiate` by the host. -/
def emptyStore : State := ⟨none, [], []⟩

/-- The host validator used for concrete runs: every string is its own
validated address. -/
def apiOk : String → Option String := fun s => some s

deriving instance DecidableEq for Except

/-! ## Call sequences -/

/-- One dispatched call: caller identity plus the message. -/
structure Event where
  info : MessageInfo
  msg : ExecuteMsg
deriving DecidableEq, Repr

/-- Run a sequence of calls.  A failed call leaves the store as the call left
it, which `error_state_unchanged` below shows is the pre-call store — matching
the host's rollback of failed calls. -/
def runTrace (api : String → Option String) (st : State) : List Event → State
  | [] => st
  | e :: es => runTrace api (execute api st e.info e.msg).2 es

/-- The arguments of one `CreateInvoice` call. -/
structure CreateReq where
  info : MessageInfo
  recipient : String
  amount : Nat
  description : String
  due_date : Nat
deriving DecidableEq, Repr

/-- Run a sequence of `CreateInvoice` calls, failing as a whole if any call
fails, and collect the assigned ids (the counter value read by each call) in
call order. -/
def runCreates (api : String → Option String) (st : State) :
    List CreateReq → Except ContractError (State × List Nat)
  | [] => .ok (st, [])
  | r :: rs =>
    match execute_create_invoice api st r.info r.recipient r.amount r.description r.due_date with
    | (.error e, _) => .error e
    | (.ok _, st') =>
      match runCreates api st' rs with
      | .error e => .error e
      | .ok (st'', ids) => .ok (st'', st.next_invoice_id.getD 0 :: ids)

/-- The ids assigned to the successful `CreateInvoice` calls issued by `A`
along a trace, in call order (one id — the counter value at the time — per
successful create whose sender is `A`). -/
def traceIssued (api : String → Option String) (A : String) (st : State) :
    List Event → List Nat
  | [] => []
  | e :: es =>
    let r := execute api st e.info e.msg
    let rest := traceIssued api A r.2 es
    match e.msg with
    | .CreateInvoice _ _ _ _ =>
      if e.info.sender = A ∧ r.1.isOk = true then st.next_invoice_id.getD 0 :: rest else rest
    | .PayInvoice _ => rest

/-! ## Store invariants -/

/-- Every stored invoice id is strictly below the counter, so the next create
never overwrites an existing invoice. -/
def counterFresh (st : State) : Prop :=
  match st.next_invoice_id with
  | none => True
  | some c => ∀ p ∈ st.invoices, p.1 < c

instance (st : State) : Decidable (counterFresh st) := by
  unfold counterFresh
  cases st.next_invoice_id <;> infer_instance

/-- The store invariant maintained by every operation (barring counter
wrap-around): the counter is initialized, stored ids are below it, every
invoice is keyed by its own id, and every indexed id belongs to a stored
invoice issued by the index's owner. -/
structure Inv (st : State) : Prop where
  counter_some : ∃ c, st.next_invoice_id = some c
  keys_lt : ∀ i inv c, List.lookup i st.invoices = some inv →
    st.next_invoice_id = some c → i < c
  id_eq : ∀ i inv, List.lookup i st.invoices = some inv → inv.id = i
  idx_ok : ∀ A ids i, List.lookup A st.user_invoices = some ids → i ∈ ids →
    ∃ inv, List.lookup i st.invoices = some inv ∧ inv.issuer = A

/-! ## Association-list lemmas -/

theorem lookup_setKey_self [BEq K] [LawfulBEq K] (k : K) (v : V) (l : List (K × V)) :
    List.lookup k (setKey k v l) = some v := by
  induction l with
  | nil => simp [setKey, List.lookup]
  | cons p rest ih =>
    obtain ⟨k', v'⟩ := p
    by_cases h : k' = k
    · subst h; simp [setKey, List.lookup]
    · simp only [setKey]
      rw [if_neg (by simpa using h)]
      rw [List.lookup_cons]
      have : (k == k') = false := by
        simp only [beq_eq_false_iff_ne]; exact fun hk => h hk.symm
      simp [this, ih]

theorem lookup_setKey_ne [BEq K] [LawfulBEq K] (k k' : K) (v : V) (l : List (K × V))
    (h : k' ≠ k) : List.lookup k' (setKey k v l) = List.lookup k' l := by
  induction l with
  | nil =>
    simp only [setKey, List.lookup]
    have : (k' == k) = false := by simpa using h
    simp [this]
  | cons p rest ih =>
    obtain ⟨k₀, v₀⟩ := p
    by_cases h0 : k₀ = k
    · subst h0
      simp only [setKey, beq_self_eq_true, if_pos]
      rw [List.lookup_cons, List.lookup_cons]
      have : (k' == k₀) = false := by simpa using h
      simp [this]
    · simp only [setKey]
      rw [if_neg (by simpa using h0)]
      rw [List.lookup_cons, List.lookup_cons]
      cases hk : k' == k₀
      · simp [ih]
      · simp

/-! ## Shape of successful calls -/

/-- A successful `CreateInvoice` fully characterized: the recipient validated,
the caller differs from it, the amount is nonzero, the counter was initialized,
and the resulting store and response are exactly as built by the code. -/
theorem create_ok_shape (api : String → Option String) (st : State) (info : MessageInfo)
    (recipient : String) (amount : Nat) (description : String) (due_date : Nat)
    (resp : Response) (st' : State)
    (h : execute_create_invoice api st info recipient amount description due_date =
      (.ok resp, st')) :
    ∃ addr c, api recipient = some addr ∧ info.sender ≠ addr ∧ amount ≠ 0 ∧
      st.next_invoice_id = some c ∧
      st' = ⟨some ((c + 1) % 2 ^ 64),
             setKey c ⟨c, info.sender, addr, amount, description, due_date, false⟩ st.invoices,
             setKey info.sender
               (((List.lookup info.sender st.user_invoices).getD []) ++ [c])
               st.user_invoices⟩ ∧
      resp = ⟨[("action", "create_invoice"), ("issuer", info.sender),
               ("recipient", recipient), ("invoice_id", toString c)]⟩ := by
  unfold execute_create_invoice at h
  split at h
  · exact absurd (congrArg Prod.fst h) (by simp)
  next addr hapi =>
    split_ifs at h with hself hzero
    · exact absurd (congrArg Prod.fst h) (by simp)
    · exact absurd (congrArg Prod.fst h) (by simp)
    · split at h
      · exact absurd (congrArg Prod.fst h) (by simp)
      next c hc =>
        simp only [Prod.mk.injEq, Except.ok.injEq] at h
        exact ⟨addr, c, hapi, hself, hzero, hc, h.2.symm, h.1.symm⟩

/-- A successful `PayInvoice` fully characterized: the invoice exists, the
caller is its recipient, it was unpaid, the funds are a single entry with the
exact amount, and the store and response are exactly as built by the code. -/
theorem pay_ok_shape (st : State) (info : MessageInfo) (invoice_id : Nat)
    (resp : Response) (st' : State)
    (h : execute_pay_invoice st info invoice_id = (.ok resp, st')) :
    ∃ inv, List.lookup invoice_id st.invoices = some inv ∧
      inv.recipient = info.sender ∧ inv.is_paid = false ∧
      info.funds.length = 1 ∧ (info.funds.headD ⟨"", 0⟩).amount = inv.amount ∧
      st' = { st with invoices := setKey invoice_id { inv with is_paid := true } st.invoices } ∧
      resp = ⟨[("action", "pay_invoice"), ("payer", info.sender),
               ("invoice_id", toString invoice_id)]⟩ := by
  unfold execute_pay_invoice at h
  split at h
  · exact absurd (congrArg Prod.fst h) (by simp)
  next inv hinv =>
    split_ifs at h with hrec hpaid hfunds
    · exact absurd (congrArg Prod.fst h) (by simp)
    · exact absurd (congrArg Prod.fst h) (by simp)
    · exact absurd (congrArg Prod.fst h) (by simp)
    · push_neg at hrec hfunds
      simp only [Prod.mk.injEq, Except.ok.injEq] at h
      exact ⟨inv, hinv, hrec, by simpa using hpaid, hfunds.1, hfunds.2,
        h.2.symm, h.1.symm⟩

/-! ## Demo stores used by witnesses -/

def demoInvoice : Invoice := ⟨1, "alice", "bob", 100, "rent", 1000, false⟩

def demoUnpaidSt : State := ⟨some 2, [(1, demoInvoice)], [("alice", [1])]⟩

def demoPaidSt : State := ⟨some 2, [(1, { demoInvoice with is_paid := true })], [("alice", [1])]⟩

/-! ## C4 — authorization precedes the funds check -/

/-- C4: for every stored invoice and every caller other than its recipient,
`PayInvoice` fails with `Unauthorized` and leaves the store unchanged,
regardless of the attached funds. -/
theorem pay_unauthorized (st : State) (info : MessageInfo) (iid : Nat) (inv : Invoice)
    (hfound : List.lookup iid st.invoices = some inv)
    (hne : info.sender ≠ inv.recipient) :
    execute_pay_invoice st info iid = (.error unauthorizedErr, st) := by
  unfold execute_pay_invoice
  simp only [hfound]
  rw [if_pos (Ne.symm hne)]
  rfl

/-- Witness for C4: "carol" pays invoice 1 (recipient "bob") with exact funds
and is rejected. -/
theorem pay_unauthorized_witness :
    execute_pay_invoice demoUnpaidSt ⟨"carol", [⟨"uatom", 100⟩]⟩ 1 =
      (.error unauthorizedErr, demoUnpaidSt) :=
  pay_unauthorized demoUnpaidSt ⟨"carol", [⟨"uatom", 100⟩]⟩ 1 demoInvoice rfl (by decide)

/-! ## C5 — errors leave the store untouched -/

/-- Helper shared by several claims: a failed `execute` returns the pre-call
store unchanged. -/
theorem exec_error_eq (api : String → Option String) (st st2 : State)
    (info : MessageInfo) (msg : ExecuteMsg) (e : ContractError)
    (herr : execute api st info msg = (.error e, st2)) : st2 = st := by
  cases msg with
  | CreateInvoice recipient amount description due_date =>
    simp only [execute] at herr
    unfold execute_create_invoice at herr
    split at herr
    · injection herr with h1 h2; exact h2.symm
    · split_ifs at herr
      · injection herr with h1 h2; exact h2.symm
      · injection herr with h1 h2; exact h2.symm
      · split at herr
        · injection herr with h1 h2; exact h2.symm
        · injection herr with h1 h2; exact absurd h1 (by simp)
  | PayInvoice invoice_id =>
    simp only [execute] at herr
    unfold execute_pay_invoice at herr
    split at herr
    · injection herr with h1 h2; exact h2.symm
    · split_ifs at herr
      · injection herr with h1 h2; exact h2.symm
      · injection herr with h1 h2; exact h2.symm
      · injection herr with h1 h2; exact h2.symm
      · injection herr with h1 h2; exact absurd h1 (by simp)

/-- C5: whenever `execute` returns an error, the store it returns is exactly
the pre-call store: every validation that can fail runs before any write, so a
failed call has no observable effect even before the host's rollback. -/
theorem error_state_unchanged (api : String → Option String) (st st2 : State)
    (info : MessageInfo) (msg : ExecuteMsg) (e : ContractError)
    (herr : execute api st info msg = (.error e, st2)) : st2 = st :=
  exec_error_eq api st st2 info msg e herr

/-- Witness for C5: a failed self-invoice create returns the store unchanged. -/
theorem error_state_unchanged_witness :
    (execute apiOk (instantiate emptyStore).2 ⟨"alice", []⟩
      (.CreateInvoice "alice" 5 "d" 1)).2 = (instantiate emptyStore).2 :=
  error_state_unchanged apiOk (instantiate emptyStore).2 _ ⟨"alice", []⟩
    (.CreateInvoice "alice" 5 "d" 1) selfInvoiceErr rfl

/-! ## C6 — self-invoice rejection -/

/-- C6: whenever the caller equals the resolved recipient address,
`CreateInvoice` fails with `SelfInvoice`, for every amount and description. -/
theorem create_self_invoice (api : String → Option String) (st : State)
    (info : MessageInfo) (recipient : String) (amount : Nat) (description : String)
    (due_date : Nat) (addr : String)
    (hval : api recipient = some addr) (hself : info.sender = addr) :
    execute_create_invoice api st info recipient amount description due_date =
      (.error selfInvoiceErr, st) := by
  unfold execute_create_invoice
  simp only [hval]
  rw [if_pos hself]
  rfl

/-- Witness for C6: "alice" invoicing "alice" fails with `SelfInvoice` even
with a nonzero amount. -/
theorem create_self_invoice_witness :
    execute_create_invoice apiOk (instantiate emptyStore).2 ⟨"alice", []⟩
      "alice" 100 "rent" 1000 = (.error selfInvoiceErr, (instantiate emptyStore).2) :=
  create_self_invoice apiOk (instantiate emptyStore).2 ⟨"alice", []⟩
    "alice" 100 "rent" 1000 "alice" rfl rfl

/-! ## C7 — zero-amount rejection (error name depends on earlier checks) -/

/-- Counterexample to C7 as stated: a zero-amount create whose caller equals
the recipient fails with `SelfInvoice`, not `ZeroAmount`, because the
self-invoice check runs first. -/
theorem zero_amount_counterexample :
    (execute_create_invoice apiOk (instantiate emptyStore).2 ⟨"alice", []⟩
      "alice" 0 "d" 9).1 = .error selfInvoiceErr ∧ selfInvoiceErr ≠ zeroAmountErr :=
  ⟨rfl, by decide⟩

/-- C7 (amended): a zero-amount create fails with `ZeroAmount` whenever the
recipient validates and differs from the caller (the address and self-invoice
checks run first); and every zero-amount create fails with some error. -/
theorem create_zero_amount (api : String → Option String) (st : State)
    (info : MessageInfo) (recipient : String) (description : String) (due_date : Nat)
    (addr : String) (hval : api recipient = some addr) (hne : info.sender ≠ addr) :
    execute_create_invoice api st info recipient 0 description due_date =
      (.error zeroAmountErr, st) ∧
    ∀ (api2 : String → Option String) (st2 : State) (info2 : MessageInfo)
      (r2 d2 : String) (dd2 : Nat),
      (execute_create_invoice api2 st2 info2 r2 0 d2 dd2).1.isOk = false := by
  constructor
  · unfold execute_create_invoice
    simp only [hval]
    rw [if_neg hne]
    rfl
  · intro api2 st2 info2 r2 d2 dd2
    unfold execute_create_invoice
    split
    · rfl
    · split_ifs with h1 h2
      · rfl
      · rfl
      · exact absurd rfl h2

/-- Witness for C7 (amended): a zero-amount create with a distinct, valid
recipient fails with `ZeroAmount`. -/
theorem create_zero_amount_witness :
    execute_create_invoice apiOk (instantiate emptyStore).2 ⟨"alice", []⟩
        "bob" 0 "d" 9 = (.error zeroAmountErr, (instantiate emptyStore).2) ∧
    (execute_create_invoice apiOk demoUnpaidSt ⟨"carol", []⟩ "dave" 0 "x" 1).1.isOk = false :=
  ⟨(create_zero_amount apiOk (instantiate emptyStore).2 ⟨"alice", []⟩ "bob" "d" 9
      "bob" rfl (by decide)).1,
   (create_zero_amount apiOk (instantiate emptyStore).2 ⟨"alice", []⟩ "bob" "d" 9
      "bob" rfl (by decide)).2 apiOk demoUnpaidSt ⟨"carol", []⟩ "dave" "x" 1⟩

/-! ## C10 — the counter increment is unchecked `u64` addition -/

/-- C10: once the three validations pass, `CreateInvoice` always succeeds and
writes back `(c + 1) % 2 ^ 64`: the increment is exact whenever the stored
counter is strictly below `2 ^ 64 - 1`, and there is no overflow guard — at
`c = 2 ^ 64 - 1` the call still succeeds and the counter wraps to 0. -/
theorem counter_increment_unchecked (api : String → Option String) (st : State)
    (info : MessageInfo) (recipient : String) (amount : Nat) (description : String)
    (due_date : Nat) (addr : String) (c : Nat)
    (hval : api recipient = some addr) (hne : info.sender ≠ addr) (hamt : amount ≠ 0)
    (hctr : st.next_invoice_id = some c) :
    ((execute_create_invoice api st info recipient amount description due_date).1.isOk = true) ∧
    ((execute_create_invoice api st info recipient amount description due_date).2.next_invoice_id =
      some ((c + 1) % 2 ^ 64)) ∧
    (c < 2 ^ 64 - 1 →
      (execute_create_invoice api st info recipient amount description due_date).2.next_invoice_id =
        some (c + 1)) ∧
    (c = 2 ^ 64 - 1 →
      (execute_create_invoice api st info recipient amount description due_date).2.next_invoice_id =
        some 0) := by
  have hred : execute_create_invoice api st info recipient amount description due_date =
      (.ok ⟨[("action", "create_invoice"), ("issuer", info.sender),
             ("recipient", recipient), ("invoice_id", toString c)]⟩,
       ⟨some ((c + 1) % 2 ^ 64),
        setKey c ⟨c, info.sender, addr, amount, description, due_date, false⟩ st.invoices,
        setKey info.sender
          (((List.lookup info.sender st.user_invoices).getD []) ++ [c]) st.user_invoices⟩) := by
    unfold execute_create_invoice
    simp only [hval]
    rw [if_neg hne, if_neg hamt]
    simp only [hctr]
  refine ⟨by rw [hred]; rfl, by rw [hred], fun hlt => ?_, fun heq => ?_⟩
  · rw [hred]
    have h2 : c + 1 < 2 ^ 64 := by
      have hpow : (2 : Nat) ^ 64 = 18446744073709551616 := by norm_num
      omega
    show some ((c + 1) % 2 ^ 64) = some (c + 1)
    rw [Nat.mod_eq_of_lt h2]
  · rw [hred, heq]
    show some ((2 ^ 64 - 1 + 1) % 2 ^ 64) = some 0
    norm_num

/-- Witness for C10: a create at the maximal counter value `2 ^ 64 - 1`
succeeds and wraps the counter to 0 (and the exactness bound holds at a small
counter value). -/
theorem counter_increment_unchecked_witness :
    ((execute_create_invoice apiOk ⟨some (2 ^ 64 - 1), [], []⟩ ⟨"alice", []⟩
      "bob" 100 "rent" 1000).1.isOk = true) ∧
    ((execute_create_invoice apiOk ⟨some (2 ^ 64 - 1), [], []⟩ ⟨"alice", []⟩
      "bob" 100 "rent" 1000).2.next_invoice_id = some 0) := by
  have h := counter_increment_unchecked apiOk ⟨some (2 ^ 64 - 1), [], []⟩ ⟨"alice", []⟩
    "bob" 100 "rent" 1000 "bob" (2 ^ 64 - 1) rfl (by decide) (by decide) rfl
  exact ⟨h.1, h.2.2.2 rfl⟩

/-! ## C9 — response attributes -/

/-- A host validator that normalizes one mixed-case address to lower case, as
real address validation does for mixed-case inputs. -/
def apiNorm : String → Option String := fun s => if s = "BOB" then some "bob" else some s

/-- Counterexample to C9 as stated: with a normalizing validator, creating an
invoice for "BOB" resolves the recipient to "bob" but the `recipient`
attribute carries the raw input "BOB", not the resolved address string. -/
theorem create_attributes_counterexample :
    ((execute_create_invoice apiNorm (instantiate emptyStore).2 ⟨"alice", []⟩
        "BOB" 100 "rent" 1000).1 =
      .ok ⟨[("action", "create_invoice"), ("issuer", "alice"),
            ("recipient", "BOB"), ("invoice_id", "1")]⟩) ∧
    apiNorm "BOB" = some "bob" ∧ ("BOB" : String) ≠ "bob" :=
  ⟨rfl, rfl, by decide⟩

/-- C9 (amended): a successful create returns exactly
`action="create_invoice"`, `issuer` = the caller's address, `recipient` = the
caller-supplied recipient string as given (not the resolved address string),
and `invoice_id` = the decimal string of the assigned id; a successful pay
returns exactly `action="pay_invoice"`, `payer` = the caller's address, and
`invoice_id` = the decimal string of the paid id. -/
theorem response_attributes (api : String → Option String) (st : State)
    (info : MessageInfo) (recipient : String) (amount : Nat) (description : String)
    (due_date : Nat) (c : Nat)
    (st2 : State) (info2 : MessageInfo) (iid : Nat)
    (hctr : st.next_invoice_id = some c)
    (hcOk : (execute_create_invoice api st info recipient amount description due_date).1.isOk
      = true)
    (hpOk : (execute_pay_invoice st2 info2 iid).1.isOk = true) :
    (execute_create_invoice api st info recipient amount description due_date).1 =
      .ok ⟨[("action", "create_invoice"), ("issuer", info.sender),
            ("recipient", recipient), ("invoice_id", toString c)]⟩ ∧
    (execute_pay_invoice st2 info2 iid).1 =
      .ok ⟨[("action", "pay_invoice"), ("payer", info2.sender),
            ("invoice_id", toString iid)]⟩ := by
  constructor
  · rcases hE : execute_create_invoice api st info recipient amount description due_date
      with ⟨res, stx⟩
    rw [hE] at hcOk
    cases res with
    | error err => simp [Except.isOk, Except.toBool] at hcOk
    | ok resp =>
      obtain ⟨addr, c', -, -, -, hc', -, hresp⟩ :=
        create_ok_shape api st info recipient amount description due_date resp stx hE
      rw [hctr] at hc'
      injection hc' with hc'
      subst hc'
      rw [hresp]
  · rcases hE : execute_pay_invoice st2 info2 iid with ⟨res, stx⟩
    rw [hE] at hpOk
    cases res with
    | error err => simp [Except.isOk, Except.toBool] at hpOk
    | ok resp =>
      obtain ⟨inv, -, -, -, -, -, -, hresp⟩ := pay_ok_shape st2 info2 iid resp stx hE
      rw [hresp]

/-- Witness for C9 (amended): the concrete attribute lists of a successful
create by "alice" for "bob" and a successful pay by "bob". -/
theorem response_attributes_witness :
    (execute_create_invoice apiOk (instantiate emptyStore).2 ⟨"alice", []⟩
        "bob" 100 "rent" 1000).1 =
      .ok ⟨[("action", "create_invoice"), ("issuer", "alice"),
            ("recipient", "bob"), ("invoice_id", "1")]⟩ ∧
    (execute_pay_invoice demoUnpaidSt ⟨"bob", [⟨"uatom", 100⟩]⟩ 1).1 =
      .ok ⟨[("action", "pay_invoice"), ("payer", "bob"), ("invoice_id", "1")]⟩ :=
  response_attributes apiOk (instantiate emptyStore).2 ⟨"alice", []⟩
    "bob" 100 "rent" 1000 1 demoUnpaidSt ⟨"bob", [⟨"uatom", 100⟩]⟩ 1 rfl rfl rfl

/-! ## C2 — payment exactness (denomination is not checked) -/

/-- A pair (k, v) found by `List.lookup` is an entry of the list. -/
theorem mem_of_lookup_eq_some [BEq K] [LawfulBEq K] {k : K} {v : V} {l : List (K × V)}
    (h : List.lookup k l = some v) : (k, v) ∈ l := by
  induction l with
  | nil => simp [List.lookup] at h
  | cons p rest ih =>
    obtain ⟨k', v'⟩ := p
    rw [List.lookup_cons] at h
    cases hbeq : k == k' with
    | true =>
      rw [hbeq] at h
      injection h with h
      have : k = k' := by simpa using hbeq
      subst this; subst h
      exact List.mem_cons_self _ _
    | false =>
      rw [hbeq] at h
      exact List.mem_cons_of_mem _ (ih h)

/-- The code's funds condition, negated, says exactly: the attached funds are
one single entry whose `amount` field equals `a` — its denomination is free. -/
theorem funds_exact_iff (funds : List Coin) (a : Nat) :
    (¬ (funds.length ≠ 1 ∨ (funds.headD ⟨"", 0⟩).amount ≠ a)) ↔
      ∃ c, funds = [c] ∧ c.amount = a := by
  cases funds with
  | nil => simp
  | cons c rest =>
    cases rest with
    | nil => simp [List.headD]
    | cons d rest2 =>
      constructor
      · intro h
        exact absurd (by simp : (c :: d :: rest2).length ≠ 1) (fun hh => h (Or.inl hh))
      · rintro ⟨c', hc', -⟩
        simp at hc'

/-- Counterexample to C2 as stated: invoice 1 (recipient "bob", amount 100,
unpaid).  A non-recipient caller with exactly matching funds does not succeed
(so the iff over every caller fails), and the recipient succeeds with two
different denominations of amount 100, so denomination identity is not part of
the equality check. -/
theorem pay_exactness_counterexample :
    (execute_pay_invoice demoUnpaidSt ⟨"carol", [⟨"uatom", 100⟩]⟩ 1).1 =
      .error unauthorizedErr ∧
    (execute_pay_invoice demoUnpaidSt ⟨"bob", [⟨"uatom", 100⟩]⟩ 1).1.isOk = true ∧
    (execute_pay_invoice demoUnpaidSt ⟨"bob", [⟨"uosmo", 100⟩]⟩ 1).1.isOk = true :=
  ⟨rfl, rfl, rfl⟩

/-- C2 (amended): for a stored unpaid invoice called by its recipient,
`PayInvoice` succeeds iff the attached funds are exactly one entry whose
`amount` equals the invoice's amount — denomination is ignored; any entry
count other than 1 or any amount mismatch fails with `IncorrectPayment`. -/
theorem pay_exactness (st : State) (info : MessageInfo) (iid : Nat) (inv : Invoice)
    (hfound : List.lookup iid st.invoices = some inv)
    (hrecip : inv.recipient = info.sender)
    (hunpaid : inv.is_paid = false) :
    ((execute_pay_invoice st info iid).1.isOk = true ↔
      ∃ c, info.funds = [c] ∧ c.amount = inv.amount) ∧
    ((¬ ∃ c, info.funds = [c] ∧ c.amount = inv.amount) →
      (execute_pay_invoice st info iid).1 = .error incorrectPaymentErr) := by
  have hred : execute_pay_invoice st info iid =
      if info.funds.length ≠ 1 ∨ (info.funds.headD ⟨"", 0⟩).amount ≠ inv.amount then
        (.error (.generic "Incorrect payment amount"), st)
      else
        (.ok ⟨[("action", "pay_invoice"), ("payer", info.sender),
               ("invoice_id", toString iid)]⟩,
          { st with invoices := setKey iid { inv with is_paid := true } st.invoices }) := by
    unfold execute_pay_invoice
    simp only [hfound]
    rw [if_neg (by simp [hrecip]), if_neg (by simp [hunpaid])]
  constructor
  · rw [hred]
    by_cases hc : info.funds.length ≠ 1 ∨ (info.funds.headD ⟨"", 0⟩).amount ≠ inv.amount
    · rw [if_pos hc]
      exact iff_of_false (by simp [Except.isOk, Except.toBool])
        (fun h => absurd hc ((funds_exact_iff info.funds inv.amount).mpr h))
    · rw [if_neg hc]
      exact iff_of_true rfl ((funds_exact_iff info.funds inv.amount).mp hc)
  · intro hn
    have hc : info.funds.length ≠ 1 ∨ (info.funds.headD ⟨"", 0⟩).amount ≠ inv.amount :=
      not_not.mp (fun hnc => hn ((funds_exact_iff info.funds inv.amount).mp hnc))
    rw [hred, if_pos hc]
    rfl

/-- Witness for C2 (amended): "bob" pays invoice 1 with a single exact-amount
entry and succeeds; with a wrong amount the call fails `IncorrectPayment`. -/
theorem pay_exactness_witness :
    ((execute_pay_invoice demoUnpaidSt ⟨"bob", [⟨"uatom", 100⟩]⟩ 1).1.isOk = true) ∧
    ((execute_pay_invoice demoUnpaidSt ⟨"bob", [⟨"uatom", 50⟩]⟩ 1).1 =
      .error incorrectPaymentErr) :=
  ⟨(pay_exactness demoUnpaidSt ⟨"bob", [⟨"uatom", 100⟩]⟩ 1 demoInvoice rfl rfl rfl).1.mpr
      ⟨⟨"uatom", 100⟩, rfl, rfl⟩,
   (pay_exactness demoUnpaidSt ⟨"bob", [⟨"uatom", 50⟩]⟩ 1 demoInvoice rfl rfl rfl).2
      (by rintro ⟨c, hc, ha⟩; injection hc with h1 h2; subst h1; exact absurd ha (by decide))⟩

/-! ## C3 — paid monotonicity -/

/-- C3: a paid invoice stays paid.  Any further `PayInvoice` on its id fails
(and fails with `AlreadyPaid` when the caller is the recipient, correct funds
or not), and no operation — create or pay, successful or not — changes the
stored record of a paid invoice, as long as the counter is ahead of every
stored id (`counterFresh`, which holds on every store reachable without
exhausting the `u64` counter). -/
theorem paid_monotone (api : String → Option String) (st : State) (iid : Nat) (inv : Invoice)
    (hfresh : counterFresh st)
    (hfound : List.lookup iid st.invoices = some inv)
    (hpaid : inv.is_paid = true) :
    (∀ info : MessageInfo, (execute_pay_invoice st info iid).1.isOk = false) ∧
    (∀ info : MessageInfo, info.sender = inv.recipient →
      (execute_pay_invoice st info iid).1 = .error alreadyPaidErr) ∧
    (∀ (info : MessageInfo) (msg : ExecuteMsg),
      List.lookup iid (execute api st info msg).2.invoices = some inv) := by
  refine ⟨fun info => ?_, fun info hs => ?_, fun info msg => ?_⟩
  · unfold execute_pay_invoice
    simp only [hfound]
    by_cases hr : inv.recipient ≠ info.sender
    · rw [if_pos hr]; rfl
    · rw [if_neg hr, if_pos hpaid]; rfl
  · unfold execute_pay_invoice
    simp only [hfound]
    rw [if_neg (fun h => h hs.symm), if_pos hpaid]
    rfl
  · cases msg with
    | CreateInvoice recipient amount description due_date =>
      rcases hE : execute_create_invoice api st info recipient amount description due_date
        with ⟨res, stx⟩
      simp only [execute]
      rw [hE]
      cases res with
      | error err =>
        have : stx = st :=
          exec_error_eq api st stx info (.CreateInvoice recipient amount description due_date)
            err (by simp only [execute]; exact hE)
        rw [this]
        exact hfound
      | ok resp =>
        obtain ⟨addr, c, -, -, -, hc, hst, -⟩ :=
          create_ok_shape api st info recipient amount description due_date resp stx hE
        rw [hst]
        have hlt : iid < c := by
          unfold counterFresh at hfresh
          rw [hc] at hfresh
          exact hfresh (iid, inv) (mem_of_lookup_eq_some hfound)
        rw [lookup_setKey_ne c iid _ _ (Nat.ne_of_lt hlt)]
        exact hfound
    | PayInvoice j =>
      rcases hE : execute_pay_invoice st info j with ⟨res, stx⟩
      simp only [execute]
      rw [hE]
      cases res with
      | error err =>
        have : stx = st :=
          exec_error_eq api st stx info (.PayInvoice j) err (by simp only [execute]; exact hE)
        rw [this]
        exact hfound
      | ok resp =>
        obtain ⟨inv2, hfound2, -, hunpaid2, -, -, hst, -⟩ := pay_ok_shape st info j resp stx hE
        by_cases hj : j = iid
        · subst hj
          rw [hfound] at hfound2
          injection hfound2 with h
          rw [h, hunpaid2] at hpaid
          cases hpaid
        · rw [hst]
          show List.lookup iid (setKey j { inv2 with is_paid := true } st.invoices) = some inv
          rw [lookup_setKey_ne j iid _ _ (fun h => hj h.symm)]
          exact hfound

/-- Witness for C3: invoice 1 in `demoPaidSt` is paid; a repeat pay by the
recipient with correct funds fails `AlreadyPaid`, and a later create by a
third party leaves the paid record untouched. -/
theorem paid_monotone_witness :
    ((execute_pay_invoice demoPaidSt ⟨"bob", [⟨"uatom", 100⟩]⟩ 1).1.isOk = false) ∧
    ((execute_pay_invoice demoPaidSt ⟨"bob", [⟨"uatom", 100⟩]⟩ 1).1 = .error alreadyPaidErr) ∧
    (List.lookup 1 (execute apiOk demoPaidSt ⟨"carol", []⟩
        (.CreateInvoice "dave" 5 "x" 1)).2.invoices =
      some { demoInvoice with is_paid := true }) :=
  have h := paid_monotone apiOk demoPaidSt 1 { demoInvoice with is_paid := true }
    (by decide) rfl rfl
  ⟨h.1 ⟨"bob", [⟨"uatom", 100⟩]⟩, h.2.1 ⟨"bob", [⟨"uatom", 100⟩]⟩ rfl,
   h.2.2 ⟨"carol", []⟩ (.CreateInvoice "dave" 5 "x" 1)⟩

/-! ## C1 — monotonic unique ids -/

/-- Helper: from a counter value `c` with enough headroom, a fully successful
run of creates assigns exactly `c, c+1, …` and leaves the counter at
`c + n`. -/
theorem runCreates_ids (api : String → Option String) (reqs : List CreateReq) :
    ∀ (st : State) (c : Nat) (st' : State) (ids : List Nat),
      st.next_invoice_id = some c → c + reqs.length < 2 ^ 64 →
      runCreates api st reqs = .ok (st', ids) →
      ids = List.range' c reqs.length ∧ st'.next_invoice_id = some (c + reqs.length) := by
  induction reqs with
  | nil =>
    intro st c st' ids hc hlen hrun
    simp only [runCreates] at hrun
    injection hrun with h
    obtain ⟨h1, h2⟩ := Prod.mk.injEq _ _ _ _ |>.mp h
    subst h1; subst h2
    simpa using hc
  | cons r rs ih =>
    intro st c st' ids hc hlen hrun
    simp only [runCreates] at hrun
    split at hrun
    · exact absurd hrun (by simp)
    next resp stmid hE =>
      split at hrun
      · exact absurd hrun (by simp)
      next st2 ids2 hE2 =>
        injection hrun with h
        obtain ⟨h1, h2⟩ := Prod.mk.injEq _ _ _ _ |>.mp h
        subst h1; subst h2
        obtain ⟨addr, c0, -, -, -, hc0, hst, -⟩ :=
          create_ok_shape api st r.info r.recipient r.amount r.description r.due_date
            resp stmid hE
        rw [hc] at hc0
        injection hc0 with hc0
        subst hc0
        simp only [List.length_cons] at hlen
        have hmid : stmid.next_invoice_id = some (c + 1) := by
          rw [hst]
          show some ((c + 1) % 2 ^ 64) = some (c + 1)
          rw [Nat.mod_eq_of_lt (by omega)]
        have hres := ih stmid (c + 1) st2 ids2 hmid (by omega) hE2
        constructor
        · rw [hc]
          show c :: ids2 = List.range' c (rs.length + 1)
          rw [hres.1]
          simp [List.range']
        · rw [hres.2]
          simp only [List.length_cons]
          congr 1
          omega

/-- C1: starting from a freshly initialized store (counter = 1), a sequence of
successful `CreateInvoice` calls is assigned exactly the ids 1, 2, 3, … in
call order (no gaps, no repeats), each call reading the counter as its id, and
the counter ends at `1 + n` — provided the `u64` counter does not overflow. -/
theorem create_ids_sequential (api : String → Option String) (st st' : State)
    (reqs : List CreateReq) (ids : List Nat)
    (hinit : st.next_invoice_id = some 1)
    (hlen : 1 + reqs.length < 2 ^ 64)
    (hrun : runCreates api st reqs = .ok (st', ids)) :
    ids = List.range' 1 reqs.length ∧ st'.next_invoice_id = some (1 + reqs.length) :=
  runCreates_ids api reqs st 1 st' ids hinit hlen hrun

/-- Two concrete create calls used by the C1 witness. -/
def demoReqs : List CreateReq :=
  [⟨⟨"alice", []⟩, "bob", 100, "rent", 1000⟩, ⟨⟨"bob", []⟩, "alice", 5, "tea", 7⟩]

/-- Witness for C1: after instantiation, two successful creates are assigned
ids `[1, 2]` and the counter ends at 3. -/
theorem create_ids_sequential_witness :
    (runCreates apiOk (instantiate emptyStore).2 demoReqs).map (fun p => p.2) = .ok [1, 2] ∧
    (runCreates apiOk (instantiate emptyStore).2 demoReqs).map
      (fun p => p.1.next_invoice_id) = .ok (some 3) := by
  rcases hrun : runCreates apiOk (instantiate emptyStore).2 demoReqs with e | ⟨stf, ids⟩
  · have hOk : (runCreates apiOk (instantiate emptyStore).2 demoReqs).isOk = true := rfl
    rw [hrun] at hOk
    simp [Except.isOk, Except.toBool] at hOk
  · have h := create_ids_sequential apiOk (instantiate emptyStore).2 stf demoReqs ids
      rfl (by decide) hrun
    have h1 : ids = [1, 2] := by rw [h.1]; rfl
    have h2 : stf.next_invoice_id = some 3 := h.2
    simp [Except.map, h1, h2]

/-! ## C8 — index completeness -/

/-- The issuer index entry of `A` as the query reads it: the stored list, or
empty if absent. -/
def idxOf (st : State) (A : String) : List Nat :=
  (List.lookup A st.user_invoices).getD []

/-- The ids a single call appends to `A`'s issuer index: the counter value if
the call is a successful create issued by `A`, nothing otherwise. -/
def stepIssued (api : String → Option String) (st : State) (info : MessageInfo)
    (msg : ExecuteMsg) (A : String) : List Nat :=
  match msg with
  | .CreateInvoice _ _ _ _ =>
    if info.sender = A ∧ (execute api st info msg).1.isOk = true
    then [st.next_invoice_id.getD 0] else []
  | .PayInvoice _ => []

theorem traceIssued_cons (api : String → Option String) (A : String) (st : State)
    (e : Event) (es : List Event) :
    traceIssued api A st (e :: es) =
      stepIssued api st e.info e.msg A ++
        traceIssued api A (execute api st e.info e.msg).2 es := by
  obtain ⟨info, msg⟩ := e
  cases msg with
  | CreateInvoice recipient amount description due_date =>
    simp only [traceIssued, stepIssued]
    by_cases h : info.sender = A ∧
        (execute api st info (.CreateInvoice recipient amount description due_date)).1.isOk = true
    · rw [if_pos h, if_pos h]
      rfl
    · rw [if_neg h, if_neg h]
      rfl
  | PayInvoice j =>
    simp only [traceIssued, stepIssued]
    rfl

theorem mem_idxOf {st : State} {A : String} {i : Nat} (h : i ∈ idxOf st A) :
    ∃ ids, List.lookup A st.user_invoices = some ids ∧ i ∈ ids := by
  unfold idxOf at h
  cases hl : List.lookup A st.user_invoices with
  | none => rw [hl] at h; simp at h
  | some ids => rw [hl] at h; exact ⟨ids, rfl, h⟩

/-- One call preserves the store invariant (given counter headroom), moves the
counter up by at most one, and appends to each issuer index exactly the ids
`stepIssued` describes. -/
theorem exec_step_inv (api : String → Option String) (st : State) (info : MessageInfo)
    (msg : ExecuteMsg) (c : Nat) (hInv : Inv st) (hc : st.next_invoice_id = some c)
    (hlt : c + 1 < 2 ^ 64) :
    Inv (execute api st info msg).2 ∧
    (∃ c', (execute api st info msg).2.next_invoice_id = some c' ∧ c' ≤ c + 1) ∧
    ∀ A, idxOf (execute api st info msg).2 A = idxOf st A ++ stepIssued api st info msg A := by
  rcases hE : execute api st info msg with ⟨res, stx⟩
  cases res with
  | error err =>
    have hstx : stx = st := exec_error_eq api st stx info msg err hE
    subst hstx
    refine ⟨hInv, ⟨c, hc, Nat.le_succ c⟩, fun A => ?_⟩
    cases msg with
    | CreateInvoice recipient amount description due_date =>
      simp [stepIssued, hE, Except.isOk, Except.toBool]
    | PayInvoice j =>
      simp [stepIssued]
  | ok resp =>
    cases msg with
    | CreateInvoice recipient amount description due_date =>
      obtain ⟨addr, c0, hapi, hne, hamt, hc0, hst, hresp⟩ :=
        create_ok_shape api st info recipient amount description due_date resp stx hE
      rw [hc] at hc0
      injection hc0 with hc0
      subst hc0
      have hmod : (c + 1) % 2 ^ 64 = c + 1 := Nat.mod_eq_of_lt hlt
      subst hst
      dsimp only
      rw [hmod]
      have hOk : (execute api st info
          (.CreateInvoice recipient amount description due_date)).1.isOk = true := by
        rw [hE]; rfl
      refine ⟨⟨⟨c + 1, rfl⟩, ?_, ?_, ?_⟩, ⟨c + 1, rfl, Nat.le_refl _⟩, ?_⟩
      · intro i inv c₂ hlook hnext
        injection hnext with hnext
        by_cases hi : i = c
        · omega
        · rw [lookup_setKey_ne c i _ _ hi] at hlook
          have := hInv.keys_lt i inv c hlook hc
          omega
      · intro i inv hlook
        by_cases hi : i = c
        · subst hi
          rw [lookup_setKey_self] at hlook
          injection hlook with hlook
          rw [← hlook]
        · rw [lookup_setKey_ne c i _ _ hi] at hlook
          exact hInv.id_eq i inv hlook
      · intro A ids i hlookA hi
        by_cases hA : info.sender = A
        · subst hA
          rw [lookup_setKey_self] at hlookA
          injection hlookA with hlookA
          subst hlookA
          rcases List.mem_append.mp hi with hiold | hic
          · obtain ⟨ids₀, hl₀, hi₀⟩ := mem_idxOf (show i ∈ idxOf st info.sender from hiold)
            obtain ⟨inv, hlook, hiss⟩ := hInv.idx_ok info.sender ids₀ i hl₀ hi₀
            have hilt : i < c := hInv.keys_lt i inv c hlook hc
            exact ⟨inv, by rw [lookup_setKey_ne c i _ _ (Nat.ne_of_lt hilt)]; exact hlook, hiss⟩
          · have hiC : i = c := by simpa using hic
            subst hiC
            exact ⟨⟨i, info.sender, addr, amount, description, due_date, false⟩,
              lookup_setKey_self i _ st.invoices, rfl⟩
        · rw [lookup_setKey_ne info.sender A _ _ (fun hh => hA hh.symm)] at hlookA
          obtain ⟨inv, hlook, hiss⟩ := hInv.idx_ok A ids i hlookA hi
          have hilt : i < c := hInv.keys_lt i inv c hlook hc
          exact ⟨inv, by rw [lookup_setKey_ne c i _ _ (Nat.ne_of_lt hilt)]; exact hlook, hiss⟩
      · intro A
        simp only [stepIssued]
        by_cases hA : info.sender = A
        · subst hA
          rw [if_pos ⟨rfl, hOk⟩]
          unfold idxOf
          dsimp only
          rw [lookup_setKey_self, hc]
          rfl
        · rw [if_neg (fun hh => hA hh.1)]
          unfold idxOf
          dsimp only
          rw [lookup_setKey_ne info.sender A _ _ (fun hh => hA hh.symm)]
          simp
    | PayInvoice j =>
      obtain ⟨inv2, hf2, hrec2, hup2, hflen, hfamt, hst, hresp⟩ :=
        pay_ok_shape st info j resp stx hE
      subst hst
      dsimp only
      have hjlt : j < c := hInv.keys_lt j inv2 c hf2 hc
      refine ⟨⟨⟨c, hc⟩, ?_, ?_, ?_⟩, ⟨c, hc, Nat.le_succ c⟩, ?_⟩
      · intro i inv c₂ hlook hnext
        rw [hc] at hnext
        injection hnext with hnext
        by_cases hi : i = j
        · omega
        · rw [lookup_setKey_ne j i _ _ hi] at hlook
          have := hInv.keys_lt i inv c hlook hc
          omega
      · intro i inv hlook
        by_cases hi : i = j
        · subst hi
          rw [lookup_setKey_self] at hlook
          injection hlook with hlook
          rw [← hlook]
          exact hInv.id_eq i inv2 hf2
        · rw [lookup_setKey_ne j i _ _ hi] at hlook
          exact hInv.id_eq i inv hlook
      · intro A ids i hlookA hi
        obtain ⟨inv', hlook', hiss'⟩ := hInv.idx_ok A ids i hlookA hi
        by_cases hij : i = j
        · subst hij
          rw [hf2] at hlook'
          injection hlook' with heq
          refine ⟨{ inv2 with is_paid := true }, lookup_setKey_self i _ st.invoices, ?_⟩
          show inv2.issuer = A
          rw [heq]
          exact hiss'
        · exact ⟨inv', by rw [lookup_setKey_ne j i _ _ hij]; exact hlook', hiss'⟩
      · intro A
        simp only [stepIssued]
        unfold idxOf
        simp

/-- Running a whole trace preserves the invariant (with counter headroom for
its length) and appends to each issuer index exactly the ids of that issuer's
successful creates, in call order. -/
theorem runTrace_inv (api : String → Option String) (t : List Event) :
    ∀ (st : State) (c : Nat), Inv st → st.next_invoice_id = some c →
      c + t.length < 2 ^ 64 →
      Inv (runTrace api st t) ∧
      (∃ c', (runTrace api st t).next_invoice_id = some c' ∧ c' ≤ c + t.length) ∧
      ∀ A, idxOf (runTrace api st t) A = idxOf st A ++ traceIssued api A st t := by
  induction t with
  | nil =>
    intro st c hInv hc hlen
    exact ⟨hInv, ⟨c, hc, Nat.le_refl c⟩, fun A => by simp [runTrace, traceIssued]⟩
  | cons e es ih =>
    intro st c hInv hc hlen
    simp only [List.length_cons] at hlen ⊢
    obtain ⟨hInv1, ⟨c1, hc1, hle1⟩, hidx1⟩ :=
      exec_step_inv api st e.info e.msg c hInv hc (by omega)
    obtain ⟨hInv2, ⟨c2, hc2, hle2⟩, hidx2⟩ :=
      ih (execute api st e.info e.msg).2 c1 hInv1 hc1 (by omega)
    refine ⟨?_, ⟨c2, ?_, by omega⟩, fun A => ?_⟩
    · simpa [runTrace] using hInv2
    · simpa [runTrace] using hc2
    · show idxOf (runTrace api (execute api st e.info e.msg).2 es) A = _
      rw [hidx2 A, hidx1 A, traceIssued_cons, List.append_assoc]

/-- Looking up a list of ids that are all present and issued by `A` returns
one invoice per id, in order, all issued by `A`. -/
theorem filterMap_lookup_ids (st : State) (A : String) :
    ∀ ids : List Nat,
      (∀ i ∈ ids, ∃ inv, List.lookup i st.invoices = some inv ∧ inv.id = i ∧ inv.issuer = A) →
      (ids.filterMap (fun id => List.lookup id st.invoices)).map Invoice.id = ids ∧
      (ids.filterMap (fun id => List.lookup id st.invoices)).all
        (fun inv => inv.issuer == A) = true := by
  intro ids
  induction ids with
  | nil => intro _; simp
  | cons i rest ih =>
    intro h
    obtain ⟨inv, hlook, hid, hiss⟩ := h i (List.mem_cons_self i rest)
    have hrest := ih (fun j hj => h j (List.mem_cons_of_mem i hj))
    rw [List.filterMap_cons]
    simp only [hlook, List.map_cons, List.all_cons]
    refine ⟨?_, ?_⟩
    · rw [hrest.1, hid]
    · rw [hrest.2]
      simp [hiss]

/-- C8: starting from a freshly instantiated store, after any trace of calls —
successful or failed, by any callers — the user-invoices query for an address
`A` succeeds and returns exactly one invoice per successful create issued by
`A`, in creation order (their ids are the counter values those creates read),
every returned invoice having issuer `A`; failed calls contribute nothing and
the index is never pruned or reordered. -/
theorem index_completeness (api : String → Option String) (t : List Event) (u A : String)
    (hu : api u = some A) (hlen : 1 + t.length < 2 ^ 64) :
    (query_user_invoices api (runTrace api (instantiate emptyStore).2 t) u).map
        (fun L => (L.map Invoice.id, L.all (fun inv => inv.issuer == A))) =
      .ok (traceIssued api A (instantiate emptyStore).2 t, true) := by
  have hInv0 : Inv (instantiate emptyStore).2 := by
    refine ⟨⟨1, rfl⟩, ?_, ?_, ?_⟩
    · intro i inv c₂ hlook _
      simp [instantiate, emptyStore, List.lookup] at hlook
    · intro i inv hlook
      simp [instantiate, emptyStore, List.lookup] at hlook
    · intro A₀ ids i hlookA _
      simp [instantiate, emptyStore, List.lookup] at hlookA
  obtain ⟨hInvf, -, hidxf⟩ :=
    runTrace_inv api t (instantiate emptyStore).2 1 hInv0 rfl (by omega)
  have hids : idxOf (runTrace api (instantiate emptyStore).2 t) A =
      traceIssued api A (instantiate emptyStore).2 t := by
    rw [hidxf A]
    have : idxOf (instantiate emptyStore).2 A = [] := rfl
    rw [this, List.nil_append]
  have hmem : ∀ i ∈ idxOf (runTrace api (instantiate emptyStore).2 t) A,
      ∃ inv, List.lookup i (runTrace api (instantiate emptyStore).2 t).invoices = some inv ∧
        inv.id = i ∧ inv.issuer = A := by
    intro i hi
    obtain ⟨ids₀, hl₀, hi₀⟩ := mem_idxOf hi
    obtain ⟨inv, hlook, hiss⟩ := hInvf.idx_ok A ids₀ i hl₀ hi₀
    exact ⟨inv, hlook, hInvf.id_eq i inv hlook, hiss⟩
  have hfm := filterMap_lookup_ids (runTrace api (instantiate emptyStore).2 t) A
    (idxOf (runTrace api (instantiate emptyStore).2 t) A) hmem
  simp only [query_user_invoices, hu, Except.map]
  show Except.ok
      ((idxOf (runTrace api (instantiate emptyStore).2 t) A).filterMap _ |>.map Invoice.id,
       (idxOf (runTrace api (instantiate emptyStore).2 t) A).filterMap _ |>.all _) = _
  rw [hfm.1, hfm.2, hids]

/-- A concrete trace for the C8 witness: two successful creates by "alice"
(ids 1 and 3), one by "bob" (id 2), one failed self-create by "alice", and a
successful payment of invoice 1 by "bob". -/
def demoTrace : List Event :=
  [⟨⟨"alice", []⟩, .CreateInvoice "bob" 100 "rent" 1000⟩,
   ⟨⟨"bob", []⟩, .CreateInvoice "alice" 5 "tea" 7⟩,
   ⟨⟨"alice", []⟩, .CreateInvoice "alice" 9 "bad" 1⟩,
   ⟨⟨"bob", [⟨"uatom", 100⟩]⟩, .PayInvoice 1⟩,
   ⟨⟨"alice", []⟩, .CreateInvoice "carol" 42 "cake" 9⟩]

/-- Witness for C8: after `demoTrace`, the query for "alice" returns exactly
the invoices with ids `[1, 3]` — her two successful creates, in order, the
failed self-create contributing nothing — all issued by "alice". -/
theorem index_completeness_witness :
    (query_user_invoices apiOk (runTrace apiOk (instantiate emptyStore).2 demoTrace)
        "alice").map
        (fun L => (L.map Invoice.id, L.all (fun inv => inv.issuer == "alice"))) =
      .ok ([1, 3], true) := by
  have h := index_completeness apiOk demoTrace "alice" "alice" rfl (by decide)
  rw [h]
  rfl

end BlockInvoice
